import Mathlib

/-!
Shallow embedding of the vector indexing / retrieval core of the
`knowledgehub` package (files `knowledgehub/indices/vectorindex.py`,
`knowledgehub/pipelines/indexing.py`, `knowledgehub/indices/rankings/cohere.py`).

External capabilities (embedding model, vector store, document store,
Cohere ranking service) are modelled as function parameters; the side
effects performed on them by the pipelines are recorded in explicit trace
structures so theorems can speak about how many calls happened and with
which arguments.  Floating point scores and embedding coordinates are
modelled as `Int`: the pipelines only carry them around, never compute
with them.
-/

/-- `kotaemon.base.Document`: an id, a text and a string-keyed metadata
dict.  Metadata values are modelled as `Int` (the code only ever stores a
relevance score there); the dict is an association list with
last-write-wins update (`dictSet`). -/
structure Document where
  id_ : String
  text : String
  metadata : List (String × Int)
deriving DecidableEq, Repr

instance : Inhabited Document := ⟨⟨"", "", []⟩⟩

/-- Python dict assignment `m[k] = v`: replace the value when the key is
present, append the pair otherwise. -/
def dictSet (m : List (String × Int)) (k : String) (v : Int) :
    List (String × Int) :=
  if m.any (fun p => p.1 == k) then
    m.map (fun p => if p.1 == k then (k, v) else p)
  else
    m ++ [(k, v)]

/-- `kotaemon.base.RetrievedDocument`: a `Document` plus a similarity
score (`RetrievedDocument(**doc.to_dict(), score=score)`). -/
structure RetrievedDocument where
  doc : Document
  score : Int
deriving DecidableEq, Repr

/-! ## VectorIndexing (knowledgehub/indices/vectorindex.py, lines 17-68) -/

/-- A runtime value handed to `VectorIndexing.run`: a `str`, a `Document`,
or a value of any other type (`other tag` stands for such a value; `tag`
names its Python type). -/
inductive IndexItem where
  | str (s : String)
  | doc (d : Document)
  | other (tag : String)
deriving DecidableEq, Repr

/-- The two accepted shapes of the `text` argument of
`VectorIndexing.run`: a bare item or a list of items (a bare item is
wrapped into a singleton list by `if not isinstance(text, list)`). -/
inductive IndexInput where
  | single (i : IndexItem)
  | list (items : List IndexItem)
deriving DecidableEq, Repr

/-- `ValueError("Invalid input type {type(item)}, ...")` raised by
`VectorIndexing.run` on an item that is neither `str` nor `Document`. -/
inductive IndexError where
  | invalidInput (tag : String)
deriving DecidableEq, Repr

/-- The normalization loop of `VectorIndexing.run` (lines 52-60): builds
`input_` from the items, wrapping each `str` item into
`Document(text=item, id_=str(uuid.uuid4()))` and passing `Document` items
through unchanged.  `uuid.uuid4()` is modelled by the generator `idGen`
applied at successive counter values (`n` is the number of uuids drawn so
far). -/
def normalizeItems (idGen : Nat → String) :
    List IndexItem → Nat → Except IndexError (List Document)
  | [], _ => .ok []
  | .str s :: rest, n => do
      let ds ← normalizeItems idGen rest (n + 1)
      return ⟨idGen n, s, []⟩ :: ds
  | .doc d :: rest, n => do
      let ds ← normalizeItems idGen rest n
      return d :: ds
  | .other tag :: _, _ => .error (.invalidInput tag)

/-- Side effects of one `VectorIndexing.run` call: the argument of each
call to the embedding capability, each `vector_store.add(embeddings, ids)`
call, and each `doc_store.add(documents)` call. -/
structure IndexTrace where
  embedCalls : List (List Document)
  vectorAdds : List (List (List Int) × List String)
  docAdds : List (List Document)
deriving DecidableEq, Repr

/-- `VectorIndexing.run` (lines 47-68): normalize the input into
`input_`, call the embedding capability once on the whole batch, issue a
single `vector_store.add` with the embeddings and the documents' ids, and
when a doc store is configured a single `doc_store.add` with `input_`. -/
def VectorIndexing.run (embedding : List Document → List (List Int))
    (docStoreConfigured : Bool) (idGen : Nat → String)
    (input : IndexInput) : Except IndexError IndexTrace :=
  let items := match input with
    | .single i => [i]
    | .list is => is
  match normalizeItems idGen items 0 with
  | .error e => .error e
  | .ok input_ =>
      let embeddings := embedding input_
      .ok { embedCalls := [input_]
            vectorAdds := [(embeddings, input_.map (fun t => t.id_))]
            docAdds := if docStoreConfigured then [input_] else [] }

/-! ## VectorRetrieval (knowledgehub/indices/vectorindex.py, lines 71-113) -/

/-- Error taxonomy for `VectorRetrieval.run`.  `configurationError` is the
`ValueError("doc_store is not provided...")` of line 96.  `invalidArgument`
is the error class the specification assigns to a malformed `top_k` (no
code path of `run` raises it; it is declared so theorems can state its
absence).  `indexError` is the Python `IndexError` raised by
`self.embedding(text)[0]` when the embedding capability returns an empty
list. -/
inductive RetrievalError where
  | configurationError
  | invalidArgument
  | indexError
deriving DecidableEq, Repr

/-- Side effects of one `VectorRetrieval.run` call: each text the
embedding capability was called on, each `vector_store.query(embedding,
top_k)` call, each `doc_store.get(ids)` call, and the `(documents, query)`
argument of each reranker invocation, in order. -/
structure RetrievalTrace where
  embedCalls : List String
  queryCalls : List (List Int × Int)
  docGetCalls : List (List String)
  rerankerCalls : List (List RetrievedDocument × String)
deriving DecidableEq, Repr

/-- `VectorRetrieval`: the pipeline's injected capabilities and its
configured `top_k`.  `doc_store` is the store's `get` method (`None` when
no document store is configured), `embedding` the embedding capability on
a query text (one embedding vector per returned document), `vector_query`
the vector store's `query(embedding, top_k)` returning the parallel
triple (payloads, scores, ids), and `rerankers` the configured reranker
callables. -/
structure VectorRetrieval where
  doc_store : Option (List String → List Document)
  embedding : String → List (List Int)
  vector_query : List Int → Int → List (List Int) × List Int × List String
  rerankers : List (List RetrievedDocument → String → List RetrievedDocument)
  top_k : Int := 1

/-- `VectorRetrieval.run` (lines 80-113): default `top_k` from the
pipeline when the call passes none, fail when no doc store is configured,
embed the query, query the vector store, hydrate the ids from the doc
store, zip documents with scores positionally, then apply the configured
rerankers left to right.  Returns the outcome together with the trace of
capability calls performed. -/
def VectorRetrieval.run (p : VectorRetrieval) (text : String)
    (topK : Option Int) :
    Except RetrievalError (List RetrievedDocument) × RetrievalTrace :=
  let top_k := topK.getD p.top_k
  match p.doc_store with
  | none => (.error .configurationError, ⟨[], [], [], []⟩)
  | some get =>
    match p.embedding text with
    | [] => (.error .indexError, ⟨[text], [], [], []⟩)
    | emb :: _ =>
      let (_payloads, scores, ids) := p.vector_query emb top_k
      let docs := get ids
      let result := List.zipWith (fun d s => RetrievedDocument.mk d s) docs scores
      let folded := p.rerankers.foldl
        (fun acc r => (r acc.1 text, acc.2 ++ [(acc.1, text)])) (result, [])
      (.ok folded.1, ⟨[text], [(emb, top_k)], [ids], folded.2⟩)

/-! ## CohereReranking (knowledgehub/indices/rankings/cohere.py) -/

/-- One element of the response of `cohere_client.rerank`: an index into
the request's document list and a relevance score. -/
structure RerankResult where
  index : Nat
  relevance_score : Int
deriving DecidableEq, Repr

/-- `doc.metadata["relevance_score"] = r.relevance_score` applied to a
document value: only the metadata changes. -/
def addRelevance (d : Document) (v : Int) : Document :=
  { d with metadata := dictSet d.metadata "relevance_score" v }

/-- One iteration of the `for r in results` loop of
`CohereReranking.run`: `documents[r.index]` is looked up (Python raises
`IndexError` when out of range, modelled as `none`), its metadata is
mutated in place, and its index is appended to the output.  The state is
the current contents of the shared document objects plus the indices
appended to `compressed_docs` so far. -/
def cohereStep (st : List Document × List Nat) (r : RerankResult) :
    Option (List Document × List Nat) :=
  if h : r.index < st.1.length then
    some (st.1.set r.index (addRelevance (st.1.get ⟨r.index, h⟩) r.relevance_score),
          st.2 ++ [r.index])
  else none

/-- Outcome of `CohereReranking.run`: `docs` is the post-call state of the
input document objects (the loop mutates them in place), `picked` the
indices appended to `compressed_docs` in order, and `rerankCalls` the
number of calls made to `cohere_client.rerank`. -/
structure CohereOut where
  docs : List Document
  picked : List Nat
  rerankCalls : Nat
deriving DecidableEq, Repr

/-- The list `CohereReranking.run` returns: `compressed_docs` holds
references into the (mutated) input list, so element `j` is the final
state of the document object at the `j`-th picked index. -/
def CohereOut.output (o : CohereOut) : List Document :=
  o.picked.map (fun i => o.docs.getD i default)

/-- `CohereReranking.run` (cohere.py lines 15-40): with an empty input
list return `compressed_docs = []` before any API call; otherwise call
`cohere_client.rerank(model, query, [d.content for d in documents],
top_n=top_k)` once and run the mutation loop over its results.  `rerank`
is the ranking service; `none` is the `IndexError` of an out-of-range
`r.index`. -/
def CohereReranking.run
    (rerank : String → String → List String → Int → List RerankResult)
    (model_name : String) (top_k : Int)
    (documents : List Document) (query : String) : Option CohereOut :=
  if documents.isEmpty then some ⟨documents, [], 0⟩
  else
    let results := rerank model_name query (documents.map (fun d => d.text)) top_k
    (results.foldlM cohereStep (documents, [])).map
      (fun st => ⟨st.1, st.2, 1⟩)

/-! ## IndexVectorStoreFromDocumentPipeline (knowledgehub/pipelines/indexing.py) -/

def VECTOR_STORE_FNAME : String := "vectorstore"
def DOC_STORE_FNAME : String := "docstore"

/-- The `AttributeError` raised by `self.doc_store.save(...)` /
`self.doc_store.load(...)` when the `doc_store` param is unset (`None`). -/
inductive SaveError where
  | attributeErrorDocStoreNone
deriving DecidableEq, Repr

/-- Paths passed to `vector_store.save`/`load` and `doc_store.save`/`load`
during one `save` or `load` call. -/
structure SaveTrace where
  vectorPaths : List String
  docPaths : List String
deriving DecidableEq, Repr

/-- `IndexVectorStoreFromDocumentPipeline.save` (indexing.py lines
64-79): unconditionally `vector_store.save(path / vectorstore_fname)` then
`doc_store.save(path / docstore_fname)`.  When `doc_store` is `None` the
second call raises `AttributeError` after the first already ran. -/
def IndexVectorStoreFromDocumentPipeline.save (docStoreConfigured : Bool)
    (path : String) (vectorstore_fname : String := VECTOR_STORE_FNAME)
    (docstore_fname : String := DOC_STORE_FNAME) :
    SaveTrace × Except SaveError Unit :=
  let vpath := path ++ "/" ++ vectorstore_fname
  if docStoreConfigured then
    (⟨[vpath], [path ++ "/" ++ docstore_fname]⟩, .ok ())
  else
    (⟨[vpath], []⟩, .error .attributeErrorDocStoreNone)

/-- `IndexVectorStoreFromDocumentPipeline.load` (indexing.py lines
81-91): same shape as `save`, delegating to the stores' `load`. -/
def IndexVectorStoreFromDocumentPipeline.load (docStoreConfigured : Bool)
    (path : String) (vectorstore_fname : String := VECTOR_STORE_FNAME)
    (docstore_fname : String := DOC_STORE_FNAME) :
    SaveTrace × Except SaveError Unit :=
  let vpath := path ++ "/" ++ vectorstore_fname
  if docStoreConfigured then
    (⟨[vpath], [path ++ "/" ++ docstore_fname]⟩, .ok ())
  else
    (⟨[vpath], []⟩, .error .attributeErrorDocStoreNone)

/-- `IndexVectorStoreFromDocumentPipeline.run_batch_document` (indexing.py
lines 43-50): embed the batch, one `vector_store.add`, and one
`doc_store.add` when a doc store is configured.  Total: it never raises. -/
def IndexVectorStoreFromDocumentPipeline.run_batch_document
    (embedding : List Document → List (List Int))
    (docStoreConfigured : Bool) (text : List Document) : IndexTrace :=
  { embedCalls := [text]
    vectorAdds := [(embedding text, text.map (fun t => t.id_))]
    docAdds := if docStoreConfigured then [text] else [] }

/-! ## Concrete pipelines used by witnesses and counterexamples -/

/-- A retrieval pipeline with no configured document store. -/
def pipelineNoDocStore : VectorRetrieval :=
  { doc_store := none
    embedding := fun _ => [[1]]
    vector_query := fun _ _ => ([], [], [])
    rerankers := [] }

/-- A retrieval pipeline over an empty vector store (its query returns no
candidates) with one identity reranker configured. -/
def pipelineEmptyStoreReranker : VectorRetrieval :=
  { doc_store := some (fun _ => [])
    embedding := fun _ => [[1]]
    vector_query := fun _ _ => ([], [], [])
    rerankers := [fun ds _ => ds] }

/-- A retrieval pipeline over an empty vector store with no rerankers. -/
def pipelineEmptyStore : VectorRetrieval :=
  { doc_store := some (fun _ => [])
    embedding := fun _ => [[1]]
    vector_query := fun _ _ => ([], [], [])
    rerankers := [] }

/-! ## Claims -/

/-- C4: when no document store is configured, `VectorRetrieval.run` fails
with the configuration error (the `ValueError` of line 96) and its trace
is empty: no embedding call and no vector-store query happened, so no
state was touched. -/
theorem C4_retrieval_requires_doc_store (p : VectorRetrieval)
    (text : String) (topK : Option Int) (hds : p.doc_store = none) :
    p.run text topK = (.error .configurationError, ⟨[], [], [], []⟩) := by
  unfold VectorRetrieval.run
  rw [hds]

/-- Witness for C4 at a concrete pipeline. -/
theorem C4_retrieval_requires_doc_store_witness :
    pipelineNoDocStore.run "query" none =
      (.error .configurationError, ⟨[], [], [], []⟩) :=
  C4_retrieval_requires_doc_store pipelineNoDocStore "query" none rfl

/-- C6: `CohereReranking.run` on the empty document list returns the
empty `compressed_docs` with zero calls to `cohere_client.rerank`. -/
theorem C6_empty_rerank_no_api_call
    (rerank : String → String → List String → Int → List RerankResult)
    (model_name : String) (top_k : Int) (query : String) :
    CohereReranking.run rerank model_name top_k [] query =
      some ⟨[], [], 0⟩ ∧
    CohereOut.output ⟨[], [], 0⟩ = [] :=
  ⟨rfl, rfl⟩

/-- C10: `save` and `load` always address both stores under the fixed
sub-path names `vectorstore` and `docstore`; with no document store
configured they raise (`AttributeError` on `None`), while
`run_batch_document` (indexing) still succeeds, writing only to the
vector store. -/
theorem C10_save_load_both_stores (path : String)
    (embedding : List Document → List (List Int)) (docs : List Document) :
    IndexVectorStoreFromDocumentPipeline.save true path =
      (⟨[path ++ "/" ++ "vectorstore"], [path ++ "/" ++ "docstore"]⟩, .ok ()) ∧
    IndexVectorStoreFromDocumentPipeline.load true path =
      (⟨[path ++ "/" ++ "vectorstore"], [path ++ "/" ++ "docstore"]⟩, .ok ()) ∧
    IndexVectorStoreFromDocumentPipeline.save false path =
      (⟨[path ++ "/" ++ "vectorstore"], []⟩,
        .error .attributeErrorDocStoreNone) ∧
    IndexVectorStoreFromDocumentPipeline.load false path =
      (⟨[path ++ "/" ++ "vectorstore"], []⟩,
        .error .attributeErrorDocStoreNone) ∧
    IndexVectorStoreFromDocumentPipeline.run_batch_document
        embedding false docs =
      { embedCalls := [docs]
        vectorAdds := [(embedding docs, docs.map (fun t => t.id_))]
        docAdds := [] } :=
  ⟨rfl, rfl, rfl, rfl, rfl⟩

/-- C2 counterexample: on a pipeline whose vector store returns zero
candidate ids and which has one configured reranker, the run does return
the empty result, but its trace shows one `doc_store.get` call (with the
empty id list) and one reranker invocation — the claim's "performs no
document-store fetch, and invokes no configured reranker" is false. -/
theorem C2_counterexample_calls_still_made :
    (pipelineEmptyStoreReranker.run "q" none).1 = .ok [] ∧
    (pipelineEmptyStoreReranker.run "q" none).2.docGetCalls = [[]] ∧
    (pipelineEmptyStoreReranker.run "q" none).2.rerankerCalls = [([], "q")] :=
  ⟨rfl, rfl, rfl⟩

/-- C3 counterexample: with effective `top_k = 0` (not a positive
integer) the run still succeeds — no `InvalidArgument` failure exists in
the code, so the claim's error clause is false. -/
theorem C3_counterexample_no_validation :
    (pipelineEmptyStore.run "q" (some 0)).1 = .ok [] ∧
    (pipelineEmptyStore.run "q" (some 0)).1 ≠
      .error RetrievalError.invalidArgument :=
  ⟨rfl, by simp [pipelineEmptyStore, VectorRetrieval.run]⟩

/-- When some list element is of an unsupported type, the normalization
loop raises `ValueError` (at the first such element). -/
lemma normalizeItems_error_of_other (idGen : Nat → String) :
    ∀ (items : List IndexItem) (n : Nat) (tag : String),
      IndexItem.other tag ∈ items →
      ∃ t, normalizeItems idGen items n = .error (.invalidInput t) := by
  intro items
  induction items with
  | nil => intro n tag h; cases h
  | cons i rest ih =>
    intro n tag h
    cases i with
    | str s =>
      have hmem : IndexItem.other tag ∈ rest := by
        cases h with
        | tail _ h2 => exact h2
      obtain ⟨t, ht⟩ := ih (n + 1) tag hmem
      exact ⟨t, by simp [normalizeItems, ht]⟩
    | doc d =>
      have hmem : IndexItem.other tag ∈ rest := by
        cases h with
        | tail _ h2 => exact h2
      obtain ⟨t, ht⟩ := ih n tag hmem
      exact ⟨t, by simp [normalizeItems, ht]⟩
    | other tg => exact ⟨tg, rfl⟩

/-- The normalization loop yields exactly one `Document` per accepted
input item. -/
lemma normalizeItems_length (idGen : Nat → String) :
    ∀ (items : List IndexItem) (n : Nat) (input_ : List Document),
      normalizeItems idGen items n = .ok input_ →
      input_.length = items.length := by
  intro items
  induction items with
  | nil =>
    intro n input_ h
    simp only [normalizeItems] at h
    cases h
    rfl
  | cons i rest ih =>
    intro n input_ h
    cases i with
    | str s =>
      cases hrec : normalizeItems idGen rest (n + 1) with
      | error e => simp [normalizeItems, hrec] at h
      | ok ds =>
        simp only [normalizeItems, hrec, Except.bind] at h
        cases h
        simp [ih (n + 1) ds hrec]
    | doc d =>
      cases hrec : normalizeItems idGen rest n with
      | error e => simp [normalizeItems, hrec] at h
      | ok ds =>
        simp only [normalizeItems, hrec, Except.bind] at h
        cases h
        simp [ih n ds hrec]
    | other tag => simp [normalizeItems] at h

/-- C1: when indexing accepts a batch (normalization produced `input_`,
one document per input item) and the embedding capability honours its
one-embedding-per-document contract, the run makes exactly one embedding
call on the whole batch, one `vector_store.add` carrying the n embeddings
paired positionally with the n document ids, and — when a doc store is
configured — one `doc_store.add` with exactly those n documents, so the
ids written to the two stores coincide. -/
theorem C1_indexing_batch_consistency
    (embedding : List Document → List (List Int))
    (docStoreConfigured : Bool) (idGen : Nat → String)
    (items : List IndexItem) (input_ : List Document)
    (hnorm : normalizeItems idGen items 0 = .ok input_)
    (hlen : (embedding input_).length = input_.length) :
    ∃ tr, VectorIndexing.run embedding docStoreConfigured idGen
        (.list items) = .ok tr ∧
      tr.embedCalls = [input_] ∧
      tr.vectorAdds = [(embedding input_, input_.map (fun t => t.id_))] ∧
      input_.length = items.length ∧
      (embedding input_).length = input_.length ∧
      (input_.map (fun t => t.id_)).length = input_.length ∧
      (docStoreConfigured = true →
        tr.docAdds = [input_] ∧
        tr.docAdds.map (fun b => b.map (fun d => d.id_)) =
          tr.vectorAdds.map (fun c => c.2)) ∧
      (docStoreConfigured = false → tr.docAdds = []) := by
  have hrun : VectorIndexing.run embedding docStoreConfigured idGen
      (.list items) =
      .ok { embedCalls := [input_]
            vectorAdds := [(embedding input_, input_.map (fun t => t.id_))]
            docAdds := if docStoreConfigured then [input_] else [] } := by
    simp [VectorIndexing.run, hnorm]
  refine ⟨_, hrun, rfl, rfl,
    normalizeItems_length idGen items 0 input_ hnorm, hlen,
    List.length_map _ _, ?_, ?_⟩
  · intro h; subst h; exact ⟨rfl, rfl⟩
  · intro h; subst h; rfl

/-- Witness for C1: a two-item batch (one string, one document) with a
stub embedding capability. -/
theorem C1_indexing_batch_consistency_witness :
    ∃ tr, VectorIndexing.run (fun ds => ds.map (fun _ => [0])) true
        (fun n => toString n)
        (.list [.str "cat", .doc ⟨"b", "dog", []⟩]) = .ok tr ∧
      tr.vectorAdds = [([[0], [0]], ["0", "b"])] := by
  obtain ⟨tr, hrun, _, hadd, _⟩ :=
    C1_indexing_batch_consistency (fun ds => ds.map (fun _ => [0])) true
      (fun n => toString n) [.str "cat", .doc ⟨"b", "dog", []⟩]
      [⟨"0", "cat", []⟩, ⟨"b", "dog", []⟩] (by rfl) (by rfl)
  exact ⟨tr, hrun, hadd⟩

/-- C7: an item of any other type makes the run fail with the
`ValueError` raised for invalid input types; a string item is wrapped
into a new `Document` carrying the next freshly generated id; a
`Document` item passes through unchanged. -/
theorem C7_input_type_dispatch
    (embedding : List Document → List (List Int))
    (docStoreConfigured : Bool) (idGen : Nat → String) :
    (∀ items tag, IndexItem.other tag ∈ items →
      ∃ t, VectorIndexing.run embedding docStoreConfigured idGen
        (.list items) = .error (.invalidInput t)) ∧
    (∀ s rest n, normalizeItems idGen (.str s :: rest) n =
      (normalizeItems idGen rest (n + 1)).map
        (fun ds => Document.mk (idGen n) s [] :: ds)) ∧
    (∀ d rest n, normalizeItems idGen (.doc d :: rest) n =
      (normalizeItems idGen rest n).map (fun ds => d :: ds)) := by
  refine ⟨?_, ?_, ?_⟩
  · intro items tag hmem
    obtain ⟨t, ht⟩ := normalizeItems_error_of_other idGen items 0 tag hmem
    exact ⟨t, by simp [VectorIndexing.run, ht]⟩
  · intro s rest n
    cases h : normalizeItems idGen rest (n + 1) <;>
      simp [normalizeItems, h, Except.map]
  · intro d rest n
    cases h : normalizeItems idGen rest n <;>
      simp [normalizeItems, h, Except.map]

/-- Witness for C7: a singleton list holding a value of an unsupported
type (a Python `int`, say) is rejected. -/
theorem C7_input_type_dispatch_witness :
    ∃ t, VectorIndexing.run (fun ds => ds.map (fun _ => [0])) true
        (fun n => toString n) (.list [.other "int"]) =
      .error (.invalidInput t) :=
  (C7_input_type_dispatch (fun ds => ds.map (fun _ => [0])) true
    (fun n => toString n)).1 [.other "int"] "int" (by simp)

/-- Unfolding of the successful path of `VectorRetrieval.run`: with a
configured doc store, a non-empty embedding answer and the vector store's
triple `(payloads, scores, ids)`, the run returns the reranker fold over
the zip of hydrated documents and scores, and the full call trace. -/
lemma VectorRetrieval.run_spec (p : VectorRetrieval)
    (get : List String → List Document) (text : String) (topK : Option Int)
    (emb : List Int) (embs : List (List Int))
    (pl : List (List Int)) (scores : List Int) (ids : List String)
    (hds : p.doc_store = some get)
    (hemb : p.embedding text = emb :: embs)
    (hq : p.vector_query emb (topK.getD p.top_k) = (pl, scores, ids)) :
    p.run text topK =
      (.ok (p.rerankers.foldl
          (fun acc r => (r acc.1 text, acc.2 ++ [(acc.1, text)]))
          (List.zipWith (fun d s => RetrievedDocument.mk d s)
            (get ids) scores, [])).1,
       ⟨[text], [(emb, topK.getD p.top_k)], [ids],
        (p.rerankers.foldl
          (fun acc r => (r acc.1 text, acc.2 ++ [(acc.1, text)]))
          (List.zipWith (fun d s => RetrievedDocument.mk d s)
            (get ids) scores, [])).2⟩) := by
  simp only [VectorRetrieval.run, hds, hemb, hq]

/-- C3 (amended): `top_k` does default to the pipeline-level value when
not supplied (`topK.getD p.top_k` is what reaches `vector_store.query`),
but the code performs no validation at all: whatever the effective
`top_k`, positive or not, the call succeeds and passes it straight to the
vector store. -/
theorem C3_amended_default_topk_no_validation (p : VectorRetrieval)
    (get : List String → List Document) (text : String) (topK : Option Int)
    (emb : List Int) (embs : List (List Int))
    (hds : p.doc_store = some get)
    (hemb : p.embedding text = emb :: embs) :
    (∃ res, (p.run text topK).1 = .ok res) ∧
    (p.run text topK).2.queryCalls = [(emb, topK.getD p.top_k)] := by
  rcases hq : p.vector_query emb (topK.getD p.top_k) with ⟨pl, scores, ids⟩
  rw [VectorRetrieval.run_spec p get text topK emb embs pl scores ids
    hds hemb hq]
  exact ⟨⟨_, rfl⟩, rfl⟩

/-- Witness for C3 (amended) at a non-positive per-call `top_k`. -/
theorem C3_amended_witness :
    (∃ res, (pipelineEmptyStore.run "q" (some (-5))).1 = .ok res) ∧
    (pipelineEmptyStore.run "q" (some (-5))).2.queryCalls = [([1], -5)] :=
  C3_amended_default_topk_no_validation pipelineEmptyStore
    (fun _ => []) "q" (some (-5)) [1] [] rfl rfl

/-- Folding the reranker chain over an empty current result keeps the
result empty (when every reranker maps empty to empty) and still records
one invocation per configured reranker. -/
lemma foldl_rerankers_on_empty (text : String) :
    ∀ (rs : List (List RetrievedDocument → String → List RetrievedDocument))
      (acc : List (List RetrievedDocument × String)),
      (∀ r ∈ rs, r [] text = []) →
      rs.foldl (fun acc r => (r acc.1 text, acc.2 ++ [(acc.1, text)]))
          ([], acc) =
        ([], acc ++ rs.map (fun _ => ([], text))) := by
  intro rs
  induction rs with
  | nil => intro acc _; simp
  | cons r rest ih =>
    intro acc hall
    simp only [List.foldl_cons]
    rw [hall r (List.mem_cons_self r rest)]
    rw [ih (acc ++ [([], text)]) (fun q hq => hall q (List.mem_cons_of_mem _ hq))]
    simp

/-- C2 (amended): when the vector store returns zero candidates the run
does return the empty result without error (given that every configured
reranker maps an empty list to an empty list, as `CohereReranking` does),
but it still performs one `doc_store.get` call — with the empty id
list — and still invokes every configured reranker once, on the empty
list. -/
theorem C2_amended_empty_candidates (p : VectorRetrieval)
    (get : List String → List Document) (text : String) (topK : Option Int)
    (emb : List Int) (embs : List (List Int))
    (hds : p.doc_store = some get)
    (hemb : p.embedding text = emb :: embs)
    (hq : p.vector_query emb (topK.getD p.top_k) = ([], [], []))
    (hre : ∀ r ∈ p.rerankers, r [] text = []) :
    (p.run text topK).1 = .ok [] ∧
    (p.run text topK).2.docGetCalls = [[]] ∧
    (p.run text topK).2.rerankerCalls =
      p.rerankers.map (fun _ => ([], text)) := by
  rw [VectorRetrieval.run_spec p get text topK emb embs [] [] []
    hds hemb hq]
  simp only [List.zipWith_nil_right]
  rw [foldl_rerankers_on_empty text p.rerankers [] hre]
  exact ⟨rfl, trivial, by simp⟩

/-- Witness for C2 (amended): the empty-store pipeline with one identity
reranker. -/
theorem C2_amended_witness :
    (pipelineEmptyStoreReranker.run "q" none).1 = .ok [] ∧
    (pipelineEmptyStoreReranker.run "q" none).2.docGetCalls = [[]] ∧
    (pipelineEmptyStoreReranker.run "q" none).2.rerankerCalls =
      pipelineEmptyStoreReranker.rerankers.map (fun _ => ([], "q")) :=
  C2_amended_empty_candidates pipelineEmptyStoreReranker
    (fun _ => []) "q" none [1] [] rfl rfl rfl
    (by intro r hr
        simp only [pipelineEmptyStoreReranker, List.mem_singleton] at hr
        subst hr
        rfl)

/-- C5: with rerankers `[r1, r2]` configured in that order, the final
result is `r2 (r1 initial query) query`: the chain is applied left to
right, the output of each reranker feeding the next. -/
theorem C5_rerankers_chained_left_to_right (p : VectorRetrieval)
    (get : List String → List Document)
    (r1 r2 : List RetrievedDocument → String → List RetrievedDocument)
    (text : String) (topK : Option Int)
    (emb : List Int) (embs : List (List Int))
    (hds : p.doc_store = some get)
    (hemb : p.embedding text = emb :: embs)
    (hrr : p.rerankers = [r1, r2])
    (_hne : (p.vector_query emb (topK.getD p.top_k)).2.2 ≠ []) :
    (p.run text topK).1 =
      .ok (r2 (r1 (List.zipWith (fun d s => RetrievedDocument.mk d s)
        (get (p.vector_query emb (topK.getD p.top_k)).2.2)
        (p.vector_query emb (topK.getD p.top_k)).2.1) text) text) := by
  rcases hquery : p.vector_query emb (topK.getD p.top_k) with ⟨pl, scores, ids⟩
  rw [VectorRetrieval.run_spec p get text topK emb embs pl scores ids
    hds hemb hquery, hrr]
  rfl

/-- A one-document store whose vector query reports one candidate, with
two rerankers (duplicate, then keep the first). -/
def pipelineTwoRerankers : VectorRetrieval :=
  { doc_store := some (fun _ => [⟨"a", "cat", []⟩])
    embedding := fun _ => [[1]]
    vector_query := fun _ _ => ([[1]], [5], ["a"])
    rerankers := [fun ds _ => ds ++ ds, fun ds _ => ds.take 1] }

/-- Witness for C5 on `pipelineTwoRerankers`. -/
theorem C5_rerankers_chained_witness :
    (pipelineTwoRerankers.run "q" none).1 =
      .ok [RetrievedDocument.mk ⟨"a", "cat", []⟩ 5] :=
  C5_rerankers_chained_left_to_right pipelineTwoRerankers
    (fun _ => [⟨"a", "cat", []⟩]) (fun ds _ => ds ++ ds)
    (fun ds _ => ds.take 1) "q" none [1] [] rfl rfl rfl (by decide)

/-- C8: the hydration step pairs documents with scores by position via
`zip`, silently truncating to the shorter of the two lists — a document
store answering fewer documents than ids requested raises no error, and
the i-th returned document is paired with the i-th score regardless of
which id went unanswered. -/
theorem C8_hydration_zip_truncates (p : VectorRetrieval)
    (get : List String → List Document) (text : String) (topK : Option Int)
    (emb : List Int) (embs : List (List Int))
    (hds : p.doc_store = some get)
    (hemb : p.embedding text = emb :: embs)
    (hrr : p.rerankers = []) :
    ∃ res, (p.run text topK).1 = .ok res ∧
      res.length =
        min (get (p.vector_query emb (topK.getD p.top_k)).2.2).length
          (p.vector_query emb (topK.getD p.top_k)).2.1.length ∧
      ∀ i : Nat, res[i]? =
        ((get (p.vector_query emb (topK.getD p.top_k)).2.2)[i]?).bind
          (fun d => ((p.vector_query emb (topK.getD p.top_k)).2.1[i]?).map
            (fun s => RetrievedDocument.mk d s)) := by
  rcases hquery : p.vector_query emb (topK.getD p.top_k) with ⟨pl, scores, ids⟩
  rw [VectorRetrieval.run_spec p get text topK emb embs pl scores ids
    hds hemb hquery, hrr]
  refine ⟨List.zipWith (fun d s => RetrievedDocument.mk d s)
    (get ids) scores, rfl, ?_, ?_⟩
  · exact List.length_zipWith _ _ _
  · intro i
    show (List.zipWith (fun d s => RetrievedDocument.mk d s)
        (get ids) scores)[i]? =
      ((get ids)[i]?).bind
        (fun d => (scores[i]?).map (fun s => RetrievedDocument.mk d s))
    rw [List.getElem?_zipWith']
    cases (get ids)[i]? <;> cases scores[i]? <;> rfl

/-- A pipeline whose vector store reports two candidate ids but whose
document store only answers one document. -/
def pipelineMissingDoc : VectorRetrieval :=
  { doc_store := some (fun _ => [⟨"a", "cat", []⟩])
    embedding := fun _ => [[1]]
    vector_query := fun _ _ => ([[1], [2]], [5, 4], ["a", "b"])
    rerankers := [] }

/-- Witness for C8: two ids and two scores, one hydrated document: the
result has one entry, no error. -/
theorem C8_hydration_zip_truncates_witness :
    ∃ res, (pipelineMissingDoc.run "q" none).1 = .ok res ∧
      res.length = 1 := by
  obtain ⟨res, hok, hlen, _⟩ :=
    C8_hydration_zip_truncates pipelineMissingDoc
      (fun _ => [⟨"a", "cat", []⟩]) "q" none [1] [] rfl rfl rfl
  exact ⟨res, hok, hlen⟩

/-- Behaviour of the `for r in results` mutation loop of
`CohereReranking.run` when all returned indices are in range and pairwise
distinct: every index is appended to `compressed_docs` in order, the
document object at each returned index ends with its metadata extended by
that result's relevance score, and every other document object is left
untouched. -/
lemma foldlM_cohereStep_spec :
    ∀ (results : List RerankResult) (ds : List Document) (acc : List Nat),
      (∀ r ∈ results, r.index < ds.length) →
      ((results.map (fun r => r.index)).Nodup) →
      ∃ fin, List.foldlM cohereStep (ds, acc) results =
          some (fin, acc ++ results.map (fun r => r.index)) ∧
        fin.length = ds.length ∧
        (∀ i, i ∉ results.map (fun r => r.index) → fin[i]? = ds[i]?) ∧
        (∀ r ∈ results, fin[r.index]? =
          (ds[r.index]?).map (fun d => addRelevance d r.relevance_score)) := by
  intro results
  induction results with
  | nil =>
    intro ds acc _ _
    exact ⟨ds, by simp, rfl, fun _ _ => rfl, by simp⟩
  | cons r rest ih =>
    intro ds acc hvalid hnodup
    have hr : r.index < ds.length := hvalid r (List.mem_cons_self _ _)
    have hstep : cohereStep (ds, acc) r =
        some (ds.set r.index
            (addRelevance (ds.get ⟨r.index, hr⟩) r.relevance_score),
          acc ++ [r.index]) := by
      simp [cohereStep, hr]
    have hnotin : r.index ∉ rest.map (fun q => q.index) := by
      simp only [List.map_cons, List.nodup_cons] at hnodup
      exact hnodup.1
    have htail : (rest.map (fun q => q.index)).Nodup := by
      simp only [List.map_cons, List.nodup_cons] at hnodup
      exact hnodup.2
    obtain ⟨fin, hfold, hlen, hout, hin⟩ :=
      ih (ds.set r.index
          (addRelevance (ds.get ⟨r.index, hr⟩) r.relevance_score))
        (acc ++ [r.index])
        (fun q hq => by
          rw [List.length_set]
          exact hvalid q (List.mem_cons_of_mem _ hq))
        htail
    refine ⟨fin, ?_, ?_, ?_, ?_⟩
    · rw [List.foldlM_cons, hstep]
      show List.foldlM cohereStep _ rest = _
      rw [hfold]
      simp
    · rw [hlen, List.length_set]
    · intro i hi
      have hi1 : i ≠ r.index := by
        intro h; exact hi (by simp [h])
      have hi2 : i ∉ rest.map (fun q => q.index) := by
        intro h; exact hi (by simp [h])
      rw [hout i hi2, List.getElem?_set_ne (Ne.symm hi1)]
    · intro q hq
      rcases List.mem_cons.mp hq with hq1 | hq2
      · subst hq1
        rw [hout q.index hnotin, List.getElem?_set_self hr,
          List.getElem?_eq_getElem hr]
        rfl
      · have hne2 : r.index ≠ q.index := by
          intro h
          exact hnotin (h ▸ List.mem_map_of_mem (fun z => z.index) hq2)
        rw [hin q hq2, List.getElem?_set_ne hne2]

/-- C9: when the ranking service answers with in-range, pairwise-distinct
indices, `CohereReranking.run` calls it once and mutates the selected
input document objects in place: the `j`-th returned element is the input
document at the service's `j`-th index with its metadata extended by the
relevance score under the key `relevance_score` (id, text and all other
documents unchanged, as `addRelevance` touches only `metadata`). -/
theorem C9_cohere_rerank_mutates_in_place
    (rerank : String → String → List String → Int → List RerankResult)
    (model_name : String) (top_k : Int)
    (documents : List Document) (query : String)
    (hne : documents ≠ [])
    (hvalid : ∀ r ∈ rerank model_name query
        (documents.map (fun d => d.text)) top_k,
      r.index < documents.length)
    (hnodup : ((rerank model_name query (documents.map (fun d => d.text))
        top_k).map (fun r => r.index)).Nodup) :
    ∃ o, CohereReranking.run rerank model_name top_k documents query =
        some o ∧
      o.rerankCalls = 1 ∧
      o.picked = (rerank model_name query (documents.map (fun d => d.text))
        top_k).map (fun r => r.index) ∧
      o.docs.length = documents.length ∧
      (∀ i, i ∉ o.picked → o.docs[i]? = documents[i]?) ∧
      (∀ r ∈ rerank model_name query (documents.map (fun d => d.text)) top_k,
        o.docs[r.index]? = (documents[r.index]?).map
          (fun d => addRelevance d r.relevance_score)) ∧
      (∀ (j : Nat) (r : RerankResult),
        (rerank model_name query (documents.map (fun d => d.text))
          top_k)[j]? = some r →
        o.output[j]? = (documents[r.index]?).map
          (fun d => addRelevance d r.relevance_score)) := by
  obtain ⟨fin, hfold, hlen, hout, hin⟩ :=
    foldlM_cohereStep_spec
      (rerank model_name query (documents.map (fun d => d.text)) top_k)
      documents [] hvalid hnodup
  have hempty : documents.isEmpty = false := by
    cases documents with
    | nil => exact absurd rfl hne
    | cons d ds => rfl
  have hrunEq : CohereReranking.run rerank model_name top_k documents query =
      some ⟨fin, (rerank model_name query (documents.map (fun d => d.text))
        top_k).map (fun r => r.index), 1⟩ := by
    unfold CohereReranking.run
    rw [hempty]
    simp only [Bool.false_eq_true, if_false, hfold, Option.map_some']
    simp
  refine ⟨_, hrunEq, rfl, rfl, hlen, hout, hin, ?_⟩
  intro j r hj
  have hrmem : r ∈ rerank model_name query (documents.map (fun d => d.text))
      top_k := List.getElem?_mem hj
  show (CohereOut.output ⟨fin, _, 1⟩)[j]? = _
  unfold CohereOut.output
  rw [List.getElem?_map, List.getElem?_map, hj]
  have hd : documents[r.index]? =
      some (documents.get ⟨r.index, hvalid r hrmem⟩) :=
    List.getElem?_eq_getElem (hvalid r hrmem)
  simp only [Option.map_some']
  rw [List.getD_eq_getElem?_getD, hin r hrmem, hd]
  rfl

/-- Witness for C9: two documents, a stub ranking service answering
indices 1 then 0. -/
theorem C9_cohere_rerank_mutates_in_place_witness :
    ∃ o, CohereReranking.run (fun _ _ _ _ => [⟨1, 9⟩, ⟨0, 7⟩])
        "rerank-multilingual-v2.0" 2
        [⟨"a", "cat", []⟩, ⟨"b", "dog", []⟩] "q" = some o ∧
      o.rerankCalls = 1 := by
  obtain ⟨o, hrun, hcalls, _⟩ :=
    C9_cohere_rerank_mutates_in_place (fun _ _ _ _ => [⟨1, 9⟩, ⟨0, 7⟩])
      "rerank-multilingual-v2.0" 2 [⟨"a", "cat", []⟩, ⟨"b", "dog", []⟩] "q"
      (by decide) (by decide) (by decide)
  exact ⟨o, hrun, hcalls⟩
